import Mathlib

/-!
Verification development for the person-enrichment service.

The Go source is shallowly embedded: Go float64 probabilities are modelled
as rationals, time.Time as an integer timestamp, uuid.UUID as a string, and
pointer-typed optional fields as Option.  Each external HTTP interaction is
modelled by the outcome the client observes (network error, or a status code
with a body that decodes or fails to decode).  Stateful effects (which
services were invoked, whether the store write happened) are made explicit
as a trace returned alongside the result.
-/

namespace Enrichment

/-- Embeds entities.Person from
internal/service/domain/entities/person: pointer fields become Option,
float64 becomes Rat, time.Time becomes Int, uuid.UUID becomes String. -/
structure Person where
  id : String
  name : String
  surname : String
  patronymic : Option String
  age : Option Int
  gender : Option String
  genderProbability : Option Rat
  nationality : Option String
  nationalityProbability : Option Rat
  createdAt : Int
  updatedAt : Int
deriving DecidableEq, Repr

/-- Errors an enrichment API client can return, embedding the error values of
the age, gender and nationality client packages: ErrEmptyName,
request-execution failure, ErrNon200Response with its status, and a
JSON-decoding failure. -/
inductive ClientError where
  | emptyName
  | requestFailed (msg : String)
  | non200 (status : Nat)
  | decodeFailed (msg : String)
deriving DecidableEq, Repr

/-- Outcome of the single HTTP round trip a client performs, as the client
observes it: the Do call fails, or a response arrives with a status code and
a body that either decodes to the model type or fails to decode. -/
inductive HTTPOutcome (β : Type) where
  | netErr (msg : String)
  | resp (status : Nat) (body : Except String β)

/-- Embeds agemodels.Response (domain/models/api/age). -/
structure AgeResponse where
  name : String
  age : Int
  count : Int
deriving DecidableEq, Repr

/-- Embeds gendermodels.Response (domain/models/api/gender). -/
structure GenderResponse where
  name : String
  gender : String
  probability : Rat
  count : Int
deriving DecidableEq, Repr

/-- Embeds nationalitymodels.Country (domain/models/api/nationality). -/
structure Country where
  countryID : String
  probability : Rat
deriving DecidableEq, Repr

/-- Embeds nationalitymodels.Response (domain/models/api/nationality). -/
structure NationalityResponse where
  name : String
  countries : List Country
deriving DecidableEq, Repr

/-- Embeds the loop in APIClient.GetNationalityByName that scans the
candidate list keeping the running best, replacing it only on a strictly
greater probability. -/
def bestOf (best : Country) : List Country → Country
  | [] => best
  | c :: rest =>
      if best.probability < c.probability then bestOf c rest else bestOf best rest

/-- Embeds APIClient.GetAgeByName (adapters/enrichment/api/people/age).
Returns the Go result triple (age, probability, error) together with the
number of HTTP requests issued.  The constant base URL always parses and
request construction from it cannot fail, so those error branches are
unreachable and not modelled. -/
def GetAgeByName (outcome : HTTPOutcome AgeResponse) (name : String) :
    (Int × Rat × Option ClientError) × Nat :=
  if name = "" then ((0, 0, some .emptyName), 0)
  else
    match outcome with
    | .netErr m => ((0, 0, some (.requestFailed m)), 1)
    | .resp status body =>
        if status ≠ 200 then ((0, 0, some (.non200 status)), 1)
        else
          match body with
          | .error m => ((0, 0, some (.decodeFailed m)), 1)
          | .ok r => ((r.age, min (r.count / 1000 : Rat) 1, none), 1)

/-- Embeds APIClient.GetGenderByName (adapters/enrichment/api/people/gender):
after a successful decode the response gender and probability are returned
as-is, with no post-processing. -/
def GetGenderByName (outcome : HTTPOutcome GenderResponse) (name : String) :
    (String × Rat × Option ClientError) × Nat :=
  if name = "" then (("", 0, some .emptyName), 0)
  else
    match outcome with
    | .netErr m => (("", 0, some (.requestFailed m)), 1)
    | .resp status body =>
        if status ≠ 200 then (("", 0, some (.non200 status)), 1)
        else
          match body with
          | .error m => (("", 0, some (.decodeFailed m)), 1)
          | .ok r => ((r.gender, r.probability, none), 1)

/-- Embeds APIClient.GetNationalityByName
(adapters/enrichment/api/people/nationality): empty candidate list yields an
empty code with zero probability and no error; otherwise the most probable
country is selected starting from the first candidate, scanning the whole
list with a strict comparison. -/
def GetNationalityByName (outcome : HTTPOutcome NationalityResponse) (name : String) :
    (String × Rat × Option ClientError) × Nat :=
  if name = "" then (("", 0, some .emptyName), 0)
  else
    match outcome with
    | .netErr m => (("", 0, some (.requestFailed m)), 1)
    | .resp status body =>
        if status ≠ 200 then (("", 0, some (.non200 status)), 1)
        else
          match body with
          | .error m => (("", 0, some (.decodeFailed m)), 1)
          | .ok r =>
              match r.countries with
              | [] => (("", 0, none), 1)
              | c :: rest =>
                  let best := bestOf c (c :: rest)
                  ((best.countryID, best.probability, none), 1)

/-- Errors of the postgres person repository
(adapters/postgres/repo/people/person): ErrPersonNotFound and a wrapped
store-level failure carrying its message. -/
inductive RepoError where
  | notFound
  | storeError (msg : String)
deriving DecidableEq, Repr

/-- Outcome of the SQL UPDATE statement as the repository observes it: the
Exec call fails with an error, or reports how many rows were affected. -/
inductive ExecOutcome where
  | execErr (msg : String)
  | rows (n : Nat)
deriving DecidableEq, Repr

/-- Embeds Repository.UpdatePerson
(adapters/postgres/repo/people/person): the record passed in has its
UpdatedAt overwritten with the current time first, then the UPDATE runs; an
Exec failure becomes a wrapped store error, zero affected rows becomes
ErrPersonNotFound.  The returned Person is the caller-visible state of the
record after the call (the Go code mutates it through the pointer). -/
def UpdatePerson (exec : ExecOutcome) (now : Int) (p : Person) :
    Person × Option RepoError :=
  let p := { p with updatedAt := now }
  match exec with
  | .execErr m => (p, some (.storeError m))
  | .rows 0 => (p, some .notFound)
  | .rows (_ + 1) => (p, none)

/-- Error returned by personServiceImpl.EnrichPerson (app.go): the wrapped
repository error from the initial load, or from the final save. -/
inductive EnrichError where
  | getFailed (e : RepoError)
  | saveFailed (e : RepoError)
deriving DecidableEq, Repr

/-- How many times EnrichPerson invoked each collaborator: the three lookup
services and the repository UpdatePerson. -/
structure Trace where
  ageCalls : Nat
  genderCalls : Nat
  nationalityCalls : Nat
  updateCalls : Nat
deriving DecidableEq, Repr

/-- Environment an EnrichPerson call runs against: the repository load
result for the requested id, the result triple each lookup service would
return for the loaded record name, the outcome of the final SQL UPDATE, and
the current time at the write. -/
structure EnrichEnv where
  loadResult : Except RepoError Person
  ageResult : Int × Rat × Option ClientError
  genderResult : String × Rat × Option ClientError
  nationalityResult : String × Rat × Option ClientError
  updateExec : ExecOutcome
  now : Int

/-- The age block of EnrichPerson (app.go): when Age is nil the age service
is consulted and on success the age is stored, the probability discarded;
returns the record and how many age lookups were made. -/
def enrichAge (env : EnrichEnv) (p : Person) : Person × Nat :=
  match p.age with
  | none =>
      match env.ageResult with
      | (age, _, none) => ({ p with age := some age }, 1)
      | (_, _, some _) => (p, 1)
  | some _ => (p, 0)

/-- The gender block of EnrichPerson (app.go): when Gender is nil the gender
service is consulted and on success both the gender and its probability are
stored. -/
def enrichGender (env : EnrichEnv) (p : Person) : Person × Nat :=
  match p.gender with
  | none =>
      match env.genderResult with
      | (gender, probability, none) =>
          ({ p with gender := some gender, genderProbability := some probability }, 1)
      | (_, _, some _) => (p, 1)
  | some _ => (p, 0)

/-- The nationality block of EnrichPerson (app.go): when Nationality is nil
the nationality service is consulted and on success both the nationality and
its probability are stored. -/
def enrichNationality (env : EnrichEnv) (p : Person) : Person × Nat :=
  match p.nationality with
  | none =>
      match env.nationalityResult with
      | (nationality, probability, none) =>
          ({ p with nationality := some nationality,
                    nationalityProbability := some probability }, 1)
      | (_, _, some _) => (p, 1)
  | some _ => (p, 0)

/-- Embeds personServiceImpl.EnrichPerson (app.go): load the record, run the
three per-field blocks in order (each lookup failure is swallowed, leaving
the field as it was), then persist through Repository.UpdatePerson; a load
or save failure aborts with the wrapped error.  Returns the Go result
together with the call trace. -/
def EnrichPerson (env : EnrichEnv) : Except EnrichError Person × Trace :=
  match env.loadResult with
  | .error e => (.error (.getFailed e), ⟨0, 0, 0, 0⟩)
  | .ok p0 =>
      let r1 := enrichAge env p0
      let r2 := enrichGender env r1.1
      let r3 := enrichNationality env r2.1
      let r4 := UpdatePerson env.updateExec env.now r3.1
      match r4.2 with
      | some e => (.error (.saveFailed e), ⟨r1.2, r2.2, r3.2, 1⟩)
      | none => (.ok r4.1, ⟨r1.2, r2.2, r3.2, 1⟩)

/-- Classifier over Enrich results: true exactly when the operation failed
with a wrapped store-level error from the save step. -/
def resultIsSaveStoreError : Except EnrichError Person → Bool
  | .error (.saveFailed (.storeError _)) => true
  | _ => false

/-- A stored record with all three demographic fields absent. -/
def blankPerson : Person :=
  { id := "7c9e6679-7425-40de-944b-e07fc1f90ae7"
    name := "John"
    surname := "Doe"
    patronymic := none
    age := none
    gender := none
    genderProbability := none
    nationality := none
    nationalityProbability := none
    createdAt := 100
    updatedAt := 100 }

/-- A stored record with all three demographic fields already present. -/
def fullPerson : Person :=
  { blankPerson with
    age := some 30
    gender := some "male"
    genderProbability := some (19/20)
    nationality := some "US"
    nationalityProbability := some (17/20) }

/-- Environment in which the gender and nationality lookups answer with the
no-determination convention (empty value, zero probability, no error), the
age lookup fails, and the store behaves normally. -/
def noDetermEnv : EnrichEnv :=
  { loadResult := .ok blankPerson
    ageResult := (0, 0, some (.requestFailed "age api down"))
    genderResult := ("", 0, none)
    nationalityResult := ("", 0, none)
    updateExec := .rows 1
    now := 200 }

/-- Environment in which only the age lookup fails and the store behaves
normally. -/
def ageFailEnv : EnrichEnv :=
  { loadResult := .ok blankPerson
    ageResult := (0, 0, some (.requestFailed "age api down"))
    genderResult := ("male", 19/20, none)
    nationalityResult := ("US", 17/20, none)
    updateExec := .rows 1
    now := 200 }

/-- Environment in which every field is already present so no lookup runs. -/
def allPresentEnv : EnrichEnv :=
  { ageFailEnv with loadResult := .ok fullPerson }

/-- Environment in which the final UPDATE matches zero rows: the record
vanished between the load and the write. -/
def rowGoneEnv : EnrichEnv :=
  { ageFailEnv with updateExec := .rows 0 }

/-- Environment whose load reports the record as missing. -/
def missingEnv : EnrichEnv :=
  { ageFailEnv with loadResult := .error .notFound }

/-- Concrete nationalize response with an exact probability tie between its
two candidates. -/
def tieResponse : NationalityResponse :=
  { name := "Akira", countries := [⟨"JP", 9/10⟩, ⟨"KR", 9/10⟩] }

/-- Whatever the UPDATE outcome, the record handed back by the repository is
the input with its UpdatedAt overwritten by the current time. -/
theorem UpdatePerson_fst (exec : ExecOutcome) (now : Int) (p : Person) :
    (UpdatePerson exec now p).1 = { p with updatedAt := now } := by
  rcases exec with m | _ | n <;> rfl

/-- An age already present short-circuits the age block: no call, no change. -/
theorem enrichAge_present (env : EnrichEnv) (p : Person) (a : Int)
    (h : p.age = some a) : enrichAge env p = (p, 0) := by
  simp [enrichAge, h]

/-- A gender already present short-circuits the gender block. -/
theorem enrichGender_present (env : EnrichEnv) (p : Person) (g : String)
    (h : p.gender = some g) : enrichGender env p = (p, 0) := by
  simp [enrichGender, h]

/-- A nationality already present short-circuits the nationality block. -/
theorem enrichNationality_present (env : EnrichEnv) (p : Person) (n : String)
    (h : p.nationality = some n) : enrichNationality env p = (p, 0) := by
  simp [enrichNationality, h]

/-- An absent age with a failing lookup leaves the record unchanged after
one call. -/
theorem enrichAge_absent_err (env : EnrichEnv) (p : Person) (e : ClientError)
    (h : p.age = none) (he : env.ageResult.2.2 = some e) :
    enrichAge env p = (p, 1) := by
  rcases hr : env.ageResult with ⟨a, q, err⟩
  rw [hr] at he
  simp at he
  subst he
  simp [enrichAge, h, hr]

/-- An absent age with a successful lookup stores the looked-up age. -/
theorem enrichAge_absent_ok (env : EnrichEnv) (p : Person)
    (h : p.age = none) (he : env.ageResult.2.2 = none) :
    enrichAge env p = ({ p with age := some env.ageResult.1 }, 1) := by
  rcases hr : env.ageResult with ⟨a, q, err⟩
  rw [hr] at he
  simp at he
  subst he
  simp [enrichAge, h, hr]

/-- An absent gender with a failing lookup leaves the record unchanged after
one call. -/
theorem enrichGender_absent_err (env : EnrichEnv) (p : Person) (e : ClientError)
    (h : p.gender = none) (he : env.genderResult.2.2 = some e) :
    enrichGender env p = (p, 1) := by
  rcases hr : env.genderResult with ⟨g, q, err⟩
  rw [hr] at he
  simp at he
  subst he
  simp [enrichGender, h, hr]

/-- An absent gender with a successful lookup stores both the gender and its
probability. -/
theorem enrichGender_absent_ok (env : EnrichEnv) (p : Person)
    (h : p.gender = none) (he : env.genderResult.2.2 = none) :
    enrichGender env p =
      ({ p with gender := some env.genderResult.1,
                genderProbability := some env.genderResult.2.1 }, 1) := by
  rcases hr : env.genderResult with ⟨g, q, err⟩
  rw [hr] at he
  simp at he
  subst he
  simp [enrichGender, h, hr]

/-- An absent nationality with a failing lookup leaves the record unchanged
after one call. -/
theorem enrichNationality_absent_err (env : EnrichEnv) (p : Person) (e : ClientError)
    (h : p.nationality = none) (he : env.nationalityResult.2.2 = some e) :
    enrichNationality env p = (p, 1) := by
  rcases hr : env.nationalityResult with ⟨n, q, err⟩
  rw [hr] at he
  simp at he
  subst he
  simp [enrichNationality, h, hr]

/-- An absent nationality with a successful lookup stores both the
nationality and its probability. -/
theorem enrichNationality_absent_ok (env : EnrichEnv) (p : Person)
    (h : p.nationality = none) (he : env.nationalityResult.2.2 = none) :
    enrichNationality env p =
      ({ p with nationality := some env.nationalityResult.1,
                nationalityProbability := some env.nationalityResult.2.1 }, 1) := by
  rcases hr : env.nationalityResult with ⟨n, q, err⟩
  rw [hr] at he
  simp at he
  subst he
  simp [enrichNationality, h, hr]

/-- The age block touches no field but the age, and never downgrades a
present age. -/
theorem enrichAge_frame (env : EnrichEnv) (p : Person) :
    ((enrichAge env p).1).id = p.id ∧
    ((enrichAge env p).1).name = p.name ∧
    ((enrichAge env p).1).surname = p.surname ∧
    ((enrichAge env p).1).patronymic = p.patronymic ∧
    ((enrichAge env p).1).createdAt = p.createdAt ∧
    ((enrichAge env p).1).updatedAt = p.updatedAt ∧
    ((enrichAge env p).1).gender = p.gender ∧
    ((enrichAge env p).1).genderProbability = p.genderProbability ∧
    ((enrichAge env p).1).nationality = p.nationality ∧
    ((enrichAge env p).1).nationalityProbability = p.nationalityProbability ∧
    (∀ a, p.age = some a → ((enrichAge env p).1).age = some a) := by
  rcases hp : p.age with _ | a <;> rcases hr : env.ageResult with ⟨a0, q0, err⟩ <;>
    rcases err with _ | e <;> simp [enrichAge, hp, hr]

/-- The gender block touches no field but the gender and its companion
probability, and changes neither when a gender is already present. -/
theorem enrichGender_frame (env : EnrichEnv) (p : Person) :
    ((enrichGender env p).1).id = p.id ∧
    ((enrichGender env p).1).name = p.name ∧
    ((enrichGender env p).1).surname = p.surname ∧
    ((enrichGender env p).1).patronymic = p.patronymic ∧
    ((enrichGender env p).1).createdAt = p.createdAt ∧
    ((enrichGender env p).1).updatedAt = p.updatedAt ∧
    ((enrichGender env p).1).age = p.age ∧
    ((enrichGender env p).1).nationality = p.nationality ∧
    ((enrichGender env p).1).nationalityProbability = p.nationalityProbability ∧
    (∀ g, p.gender = some g →
      ((enrichGender env p).1).gender = some g ∧
      ((enrichGender env p).1).genderProbability = p.genderProbability) := by
  rcases hp : p.gender with _ | g <;> rcases hr : env.genderResult with ⟨g0, q0, err⟩ <;>
    rcases err with _ | e <;> simp [enrichGender, hp, hr]

/-- The nationality block touches no field but the nationality and its
companion probability, and changes neither when a nationality is already
present. -/
theorem enrichNationality_frame (env : EnrichEnv) (p : Person) :
    ((enrichNationality env p).1).id = p.id ∧
    ((enrichNationality env p).1).name = p.name ∧
    ((enrichNationality env p).1).surname = p.surname ∧
    ((enrichNationality env p).1).patronymic = p.patronymic ∧
    ((enrichNationality env p).1).createdAt = p.createdAt ∧
    ((enrichNationality env p).1).updatedAt = p.updatedAt ∧
    ((enrichNationality env p).1).age = p.age ∧
    ((enrichNationality env p).1).gender = p.gender ∧
    ((enrichNationality env p).1).genderProbability = p.genderProbability ∧
    (∀ n, p.nationality = some n →
      ((enrichNationality env p).1).nationality = some n ∧
      ((enrichNationality env p).1).nationalityProbability = p.nationalityProbability) := by
  rcases hp : p.nationality with _ | n <;>
    rcases hr : env.nationalityResult with ⟨n0, q0, err⟩ <;>
    rcases err with _ | e <;> simp [enrichNationality, hp, hr]

/-- Scanning the candidates with a strict comparison yields either the seed,
when no candidate strictly beats it, or the first candidate of maximal
probability among those strictly beating the seed: every candidate weakly
below it, every earlier candidate strictly below it. -/
theorem bestOf_spec (t : List Country) (h : Country) :
    (bestOf h t = h ∧ ∀ x ∈ t, x.probability ≤ h.probability) ∨
    (∃ i, ∃ hi : i < t.length,
       bestOf h t = t[i] ∧
       h.probability < t[i].probability ∧
       (∀ x ∈ t, x.probability ≤ t[i].probability) ∧
       (∀ j, (hj : j < t.length) → j < i →
          t[j].probability < t[i].probability)) := by
  induction t generalizing h with
  | nil =>
      left
      exact ⟨rfl, by simp⟩
  | cons x xs ih =>
      by_cases hx : h.probability < x.probability
      · rcases ih x with ⟨heq, hall⟩ | ⟨i, hi, heq, hlt, hall, hfirst⟩
        · right
          refine ⟨0, by simp, ?_, ?_, ?_, ?_⟩
          · simpa [bestOf, hx] using heq
          · simpa using hx
          · intro y hy
            rcases List.mem_cons.mp hy with rfl | hy
            · simp
            · simpa using hall y hy
          · intro j hj hj0
            omega
        · right
          refine ⟨i + 1, by simp; omega, ?_, ?_, ?_, ?_⟩
          · simpa [bestOf, hx] using heq
          · simpa using lt_trans hx hlt
          · intro y hy
            rcases List.mem_cons.mp hy with rfl | hy
            · simpa using le_of_lt hlt
            · simpa using hall y hy
          · intro j hj hji
            rcases j with _ | j
            · simpa using hlt
            · have hj2 : j < xs.length := by simp at hj; omega
              simpa using hfirst j hj2 (by omega)
      · rcases ih h with ⟨heq, hall⟩ | ⟨i, hi, heq, hlt, hall, hfirst⟩
        · left
          constructor
          · simpa [bestOf, hx] using heq
          · intro y hy
            rcases List.mem_cons.mp hy with rfl | hy
            · exact le_of_not_lt hx
            · exact hall y hy
        · right
          refine ⟨i + 1, by simp; omega, ?_, ?_, ?_, ?_⟩
          · simpa [bestOf, hx] using heq
          · simpa using hlt
          · intro y hy
            rcases List.mem_cons.mp hy with rfl | hy
            · simpa using le_trans (le_of_not_lt hx) (le_of_lt hlt)
            · simpa using hall y hy
          · intro j hj hji
            rcases j with _ | j
            · simpa using lt_of_le_of_lt (le_of_not_lt hx) hlt
            · have hj2 : j < xs.length := by simp at hj; omega
              simpa using hfirst j hj2 (by omega)

/-- C4: the nationality reduction maps an empty candidate list to the
absent result (empty code, zero probability, no error); a non-empty list
yields the candidate of greatest probability, and on exact probability ties
the candidate appearing first in input order wins: the selected index bounds
every candidate weakly and every earlier candidate strictly. -/
theorem C4_nationality_tie_break (nm : String) (r : NationalityResponse)
    (hnm : nm ≠ "") :
    (r.countries = [] →
      (GetNationalityByName (.resp 200 (.ok r)) nm).1 = ("", 0, none)) ∧
    (r.countries ≠ [] →
      ∃ i, ∃ hi : i < r.countries.length,
        (GetNationalityByName (.resp 200 (.ok r)) nm).1 =
          (r.countries[i].countryID, r.countries[i].probability, none) ∧
        (∀ x ∈ r.countries, x.probability ≤ r.countries[i].probability) ∧
        (∀ j, (hj : j < r.countries.length) → j < i →
           r.countries[j].probability < r.countries[i].probability)) := by
  constructor
  · intro hc
    simp [GetNationalityByName, hnm, hc]
  · intro hc
    rcases hcs : r.countries with _ | ⟨c, rest⟩
    · exact absurd hcs hc
    have hred : (GetNationalityByName (.resp 200 (.ok r)) nm).1 =
        ((bestOf c rest).countryID, (bestOf c rest).probability, none) := by
      simp [GetNationalityByName, hnm, hcs, bestOf]
    rcases bestOf_spec rest c with ⟨heq, hall⟩ | ⟨i, hi, heq, hlt, hall, hfirst⟩
    · refine ⟨0, by simp, ?_, ?_, ?_⟩
      · rw [hred, heq]
        simp
      · intro y hy
        rcases List.mem_cons.mp hy with rfl | hy
        · simp
        · simpa using hall y hy
      · intro j hj hj0
        omega
    · refine ⟨i + 1, by simp; omega, ?_, ?_, ?_⟩
      · rw [hred, heq]
        simp
      · intro y hy
        rcases List.mem_cons.mp hy with rfl | hy
        · simpa using le_of_lt hlt
        · simpa using hall y hy
      · intro j hj hji
        rcases j with _ | j
        · simpa using hlt
        · have hj2 : j < rest.length := by simp at hj; omega
          simpa using hfirst j hj2 (by omega)

/-- C4 witness: on the tie response of two countries at probability 9/10 the
first one, JP, is selected, at index 0. -/
theorem C4_nationality_tie_break_witness :
    (GetNationalityByName (.resp 200 (.ok tieResponse)) "Akira").1 =
      ("JP", 9/10, none) ∧
    (∃ i, ∃ hi : i < tieResponse.countries.length,
        (GetNationalityByName (.resp 200 (.ok tieResponse)) "Akira").1 =
          (tieResponse.countries[i].countryID,
           tieResponse.countries[i].probability, none) ∧
        (∀ x ∈ tieResponse.countries,
           x.probability ≤ tieResponse.countries[i].probability) ∧
        (∀ j, (hj : j < tieResponse.countries.length) → j < i →
           tieResponse.countries[j].probability <
             tieResponse.countries[i].probability)) :=
  ⟨by
     have hak : ("Akira" : String) ≠ "" := by decide
     norm_num [GetNationalityByName, bestOf, tieResponse, hak],
   (C4_nationality_tie_break "Akira" tieResponse (by decide)).2
     (by simp [tieResponse])⟩

/-- C5: a successful age lookup reports confidence min(count/1000, 1); a
count of 500 gives 1/2, a count of 1000 gives exactly 1, and a count of 2000
is capped to 1. -/
theorem C5_age_confidence (nm : String) (r : AgeResponse) (hnm : nm ≠ "") :
    (GetAgeByName (.resp 200 (.ok r)) nm).1 =
      (r.age, min (r.count / 1000 : Rat) 1, none) ∧
    (GetAgeByName (.resp 200 (.ok ⟨nm, 30, 500⟩)) nm).1.2.1 = 1/2 ∧
    (GetAgeByName (.resp 200 (.ok ⟨nm, 30, 1000⟩)) nm).1.2.1 = 1 ∧
    (GetAgeByName (.resp 200 (.ok ⟨nm, 30, 2000⟩)) nm).1.2.1 = 1 := by
  refine ⟨by simp [GetAgeByName, hnm], ?_, ?_, ?_⟩ <;>
    simp [GetAgeByName, hnm] <;> norm_num

/-- C5 witness: the confidence formula evaluated at the concrete counts of
the claim. -/
theorem C5_age_confidence_witness :
    (GetAgeByName (.resp 200 (.ok ⟨"John", 30, 500⟩)) "John").1.2.1 = 1/2 ∧
    (GetAgeByName (.resp 200 (.ok ⟨"John", 30, 1000⟩)) "John").1.2.1 = 1 ∧
    (GetAgeByName (.resp 200 (.ok ⟨"John", 30, 2000⟩)) "John").1.2.1 = 1 :=
  ⟨(C5_age_confidence "John" ⟨"John", 30, 500⟩ (by decide)).2.1,
   (C5_age_confidence "John" ⟨"John", 30, 1000⟩ (by decide)).2.2.1,
   (C5_age_confidence "John" ⟨"John", 30, 2000⟩ (by decide)).2.2.2⟩

/-- C8: each lookup capability called with an empty name returns the
empty-name error alongside zero values, and issues no HTTP request, whatever
the network would have answered. -/
theorem C8_empty_name_no_request :
    ∀ (o1 : HTTPOutcome AgeResponse) (o2 : HTTPOutcome GenderResponse)
      (o3 : HTTPOutcome NationalityResponse),
    GetAgeByName o1 "" = ((0, 0, some .emptyName), 0) ∧
    GetGenderByName o2 "" = (("", 0, some .emptyName), 0) ∧
    GetNationalityByName o3 "" = (("", 0, some .emptyName), 0) := by
  intro o1 o2 o3
  exact ⟨rfl, rfl, rfl⟩

/-- C8 witness: even with the network reachable and answering, an empty
name short-circuits all three clients. -/
theorem C8_empty_name_no_request_witness :
    GetAgeByName (.netErr "unused") "" = ((0, 0, some .emptyName), 0) ∧
    GetGenderByName (.netErr "unused") "" = (("", 0, some .emptyName), 0) ∧
    GetNationalityByName (.netErr "unused") "" = (("", 0, some .emptyName), 0) :=
  C8_empty_name_no_request (.netErr "unused") (.netErr "unused") (.netErr "unused")

/-- After a successful load the trace records the three block counts and a
single store write, whatever the outcome of that write. -/
theorem EnrichPerson_trace (env : EnrichEnv) (p : Person)
    (h : env.loadResult = .ok p) :
    (EnrichPerson env).2 =
      ⟨(enrichAge env p).2,
       (enrichGender env (enrichAge env p).1).2,
       (enrichNationality env (enrichGender env (enrichAge env p).1).1).2, 1⟩ := by
  rcases hu : (UpdatePerson env.updateExec env.now
      (enrichNationality env (enrichGender env (enrichAge env p).1).1).1).2 with _ | e <;>
    simp [EnrichPerson, h, hu]

/-- C2: a demographic field already present on the loaded record makes
Enrich skip the corresponding lookup capability entirely. -/
theorem C2_skip_if_present (env : EnrichEnv) (p : Person)
    (h : env.loadResult = .ok p) :
    (p.age ≠ none → ((EnrichPerson env).2).ageCalls = 0) ∧
    (p.gender ≠ none → ((EnrichPerson env).2).genderCalls = 0) ∧
    (p.nationality ≠ none → ((EnrichPerson env).2).nationalityCalls = 0) := by
  rw [EnrichPerson_trace env p h]
  refine ⟨?_, ?_, ?_⟩
  · intro ha
    rcases Option.ne_none_iff_exists.mp ha with ⟨a, ha2⟩
    simp [enrichAge_present env p a ha2.symm]
  · intro hg
    rcases Option.ne_none_iff_exists.mp hg with ⟨g, hg2⟩
    obtain ⟨-, -, -, -, -, -, a7, -, -, -, -⟩ := enrichAge_frame env p
    have hg3 : ((enrichAge env p).1).gender = some g := by rw [a7, ← hg2]
    simp [enrichGender_present env _ g hg3]
  · intro hn
    rcases Option.ne_none_iff_exists.mp hn with ⟨n, hn2⟩
    obtain ⟨-, -, -, -, -, -, -, -, a9, -, -⟩ := enrichAge_frame env p
    obtain ⟨-, -, -, -, -, -, -, b8, -, -⟩ :=
      enrichGender_frame env ((enrichAge env p).1)
    have hn3 : ((enrichGender env (enrichAge env p).1).1).nationality = some n := by
      rw [b8, a9, ← hn2]
    simp [enrichNationality_present env _ n hn3]

/-- C2 witness: with every demographic field present on the loaded record no
lookup capability is invoked. -/
theorem C2_skip_if_present_witness :
    ((EnrichPerson allPresentEnv).2).ageCalls = 0 ∧
    ((EnrichPerson allPresentEnv).2).genderCalls = 0 ∧
    ((EnrichPerson allPresentEnv).2).nationalityCalls = 0 :=
  ⟨(C2_skip_if_present allPresentEnv fullPerson rfl).1
     (by simp [fullPerson, blankPerson]),
   (C2_skip_if_present allPresentEnv fullPerson rfl).2.1
     (by simp [fullPerson, blankPerson]),
   (C2_skip_if_present allPresentEnv fullPerson rfl).2.2
     (by simp [fullPerson, blankPerson])⟩

/-- C6: when the load reports the record as missing, Enrich fails with the
wrapped not-found error, invokes no lookup capability and performs no store
write. -/
theorem C6_not_found_propagation (env : EnrichEnv)
    (h : env.loadResult = .error .notFound) :
    EnrichPerson env = (.error (.getFailed .notFound), ⟨0, 0, 0, 0⟩) := by
  simp [EnrichPerson, h]

/-- C6 witness: the missing-record environment evaluated concretely. -/
theorem C6_not_found_propagation_witness :
    EnrichPerson missingEnv = (.error (.getFailed .notFound), ⟨0, 0, 0, 0⟩) :=
  C6_not_found_propagation missingEnv rfl

/-- C10: Repository.UpdatePerson overwrites the UpdatedAt of the in-memory
record with the current time before the write is attempted, leaving every
other field unchanged whatever the outcome; an execution failure yields the
wrapped store error, zero affected rows yields the not-found error, and a
positive row count yields no error. -/
theorem C10_update_refreshes_updatedAt (exec : ExecOutcome) (now : Int)
    (p : Person) :
    (UpdatePerson exec now p).1 = { p with updatedAt := now } ∧
    (∀ m, exec = .execErr m →
       (UpdatePerson exec now p).2 = some (.storeError m)) ∧
    (exec = .rows 0 → (UpdatePerson exec now p).2 = some .notFound) ∧
    (∀ k, exec = .rows (k + 1) → (UpdatePerson exec now p).2 = none) := by
  refine ⟨UpdatePerson_fst exec now p, ?_, ?_, ?_⟩
  · intro m hm
    subst hm
    rfl
  · intro h0
    subst h0
    rfl
  · intro k hk
    subst hk
    rfl

/-- C10 witness: a failing UPDATE still leaves the record with the new
UpdatedAt and reports the wrapped store error. -/
theorem C10_update_refreshes_updatedAt_witness :
    (UpdatePerson (.execErr "connection reset") 200 blankPerson).1 =
      { blankPerson with updatedAt := 200 } ∧
    (UpdatePerson (.execErr "connection reset") 200 blankPerson).2 =
      some (.storeError "connection reset") :=
  ⟨(C10_update_refreshes_updatedAt (.execErr "connection reset") 200 blankPerson).1,
   (C10_update_refreshes_updatedAt (.execErr "connection reset") 200
      blankPerson).2.1 "connection reset" rfl⟩

/-- C3: on a record with all three demographic fields absent, when exactly
one of the three lookups fails and the other two succeed, and the store
behaves normally, Enrich succeeds with the two successful fields populated
and the failed one still absent. -/
theorem C3_single_failure_tolerance (env : EnrichEnv) (p : Person) (k : Nat)
    (h : env.loadResult = .ok p) (ha : p.age = none) (hg : p.gender = none)
    (hn : p.nationality = none) (hu : env.updateExec = .rows (k + 1)) :
    (env.ageResult.2.2 ≠ none → env.genderResult.2.2 = none →
       env.nationalityResult.2.2 = none →
       (EnrichPerson env).1 = .ok { p with
          gender := some env.genderResult.1,
          genderProbability := some env.genderResult.2.1,
          nationality := some env.nationalityResult.1,
          nationalityProbability := some env.nationalityResult.2.1,
          updatedAt := env.now }) ∧
    (env.ageResult.2.2 = none → env.genderResult.2.2 ≠ none →
       env.nationalityResult.2.2 = none →
       (EnrichPerson env).1 = .ok { p with
          age := some env.ageResult.1,
          nationality := some env.nationalityResult.1,
          nationalityProbability := some env.nationalityResult.2.1,
          updatedAt := env.now }) ∧
    (env.ageResult.2.2 = none → env.genderResult.2.2 = none →
       env.nationalityResult.2.2 ≠ none →
       (EnrichPerson env).1 = .ok { p with
          age := some env.ageResult.1,
          gender := some env.genderResult.1,
          genderProbability := some env.genderResult.2.1,
          updatedAt := env.now }) := by
  refine ⟨?_, ?_, ?_⟩
  · intro h1 h2 h3
    rcases Option.ne_none_iff_exists.mp h1 with ⟨e, he⟩
    have e1 := enrichAge_absent_err env p e ha he.symm
    have e2 := enrichGender_absent_ok env p hg h2
    have e3 := enrichNationality_absent_ok env
      ({ p with gender := some env.genderResult.1,
                genderProbability := some env.genderResult.2.1 })
      (by simp [hn]) h3
    simp [EnrichPerson, h, e1, e2, e3, hu, UpdatePerson]
  · intro h1 h2 h3
    rcases Option.ne_none_iff_exists.mp h2 with ⟨e, he⟩
    have e1 := enrichAge_absent_ok env p ha h1
    have e2 := enrichGender_absent_err env
      ({ p with age := some env.ageResult.1 }) e (by simp [hg]) he.symm
    have e3 := enrichNationality_absent_ok env
      ({ p with age := some env.ageResult.1 }) (by simp [hn]) h3
    simp [EnrichPerson, h, e1, e2, e3, hu, UpdatePerson]
  · intro h1 h2 h3
    rcases Option.ne_none_iff_exists.mp h3 with ⟨e, he⟩
    have e1 := enrichAge_absent_ok env p ha h1
    have e2 := enrichGender_absent_ok env
      ({ p with age := some env.ageResult.1 }) (by simp [hg]) h2
    have e3 := enrichNationality_absent_err env
      ({ p with age := some env.ageResult.1,
                gender := some env.genderResult.1,
                genderProbability := some env.genderResult.2.1 })
      e (by simp [hn]) he.symm
    simp [EnrichPerson, h, e1, e2, e3, hu, UpdatePerson]

/-- C3 witness: the age lookup fails, gender and nationality succeed, and
Enrich succeeds with gender and nationality populated and age still
absent. -/
theorem C3_single_failure_tolerance_witness :
    (EnrichPerson ageFailEnv).1 = .ok { blankPerson with
      gender := some "male", genderProbability := some (19/20),
      nationality := some "US", nationalityProbability := some (17/20),
      updatedAt := 200 } := by
  have hC := (C3_single_failure_tolerance ageFailEnv blankPerson 0
      rfl rfl rfl rfl rfl).1
    (by simp [ageFailEnv]) (by simp [ageFailEnv]) (by simp [ageFailEnv])
  simpa [ageFailEnv] using hC

/-- C7 counterexample: when the final UPDATE matches zero rows the write
fails and Enrich fails, but with the wrapped not-found error, not a
store-level error; this refutes the claim that any final-write failure
surfaces as a StoreError. -/
theorem C7_counterexample :
    rowGoneEnv.updateExec = .rows 0 ∧
    (EnrichPerson rowGoneEnv).1 = .error (.saveFailed .notFound) ∧
    resultIsSaveStoreError (EnrichPerson rowGoneEnv).1 = false :=
  ⟨rfl, rfl, rfl⟩

/-- C7 amended: for every successfully loaded record Enrich performs exactly
one store write after the three lookup attempts, even when every field was
already present and no lookup ran; on a successful write the persisted
record carries the refreshed UpdatedAt and the call succeeds; a failed write
fails the whole operation with the wrapped persistence error: a store error
when the UPDATE execution fails, the not-found error when it affects zero
rows. -/
theorem C7_single_write (env : EnrichEnv) (p : Person)
    (h : env.loadResult = .ok p) :
    ((EnrichPerson env).2).updateCalls = 1 ∧
    ((p.age ≠ none ∧ p.gender ≠ none ∧ p.nationality ≠ none) →
       (EnrichPerson env).2 = ⟨0, 0, 0, 1⟩) ∧
    (∀ m, env.updateExec = .execErr m →
       (EnrichPerson env).1 = .error (.saveFailed (.storeError m))) ∧
    (env.updateExec = .rows 0 →
       (EnrichPerson env).1 = .error (.saveFailed .notFound)) ∧
    (∀ k, env.updateExec = .rows (k + 1) →
       ∃ q, (EnrichPerson env).1 = .ok q ∧ q.updatedAt = env.now) := by
  refine ⟨?_, ?_, ?_, ?_, ?_⟩
  · rw [EnrichPerson_trace env p h]
  · rintro ⟨ha, hg, hn⟩
    rcases Option.ne_none_iff_exists.mp ha with ⟨a, ha2⟩
    rcases Option.ne_none_iff_exists.mp hg with ⟨g, hg2⟩
    rcases Option.ne_none_iff_exists.mp hn with ⟨n, hn2⟩
    have e1 := enrichAge_present env p a ha2.symm
    have e2 := enrichGender_present env p g hg2.symm
    have e3 := enrichNationality_present env p n hn2.symm
    rw [EnrichPerson_trace env p h, e1]
    simp [e1, e2, e3]
  · intro m hm
    simp [EnrichPerson, h, hm, UpdatePerson]
  · intro h0
    simp [EnrichPerson, h, h0, UpdatePerson]
  · intro k hk
    refine ⟨{ (enrichNationality env (enrichGender env (enrichAge env p).1).1).1
        with updatedAt := env.now }, ?_, ?_⟩
    · simp [EnrichPerson, h, hk, UpdatePerson]
    · simp

/-- C7 witness: with every field already present and a healthy store, the
trace shows zero lookups and one write, and the record comes back with the
refreshed UpdatedAt. -/
theorem C7_single_write_witness :
    ((EnrichPerson allPresentEnv).2).updateCalls = 1 ∧
    (EnrichPerson allPresentEnv).2 = ⟨0, 0, 0, 1⟩ ∧
    (∃ q, (EnrichPerson allPresentEnv).1 = .ok q ∧ q.updatedAt = 200) :=
  ⟨(C7_single_write allPresentEnv fullPerson rfl).1,
   (C7_single_write allPresentEnv fullPerson rfl).2.1
     ⟨by simp [fullPerson, blankPerson], by simp [fullPerson, blankPerson],
      by simp [fullPerson, blankPerson]⟩,
   (C7_single_write allPresentEnv fullPerson rfl).2.2.2.2 0 rfl⟩

/-- C9: Enrich never changes an already-present demographic field and keeps
the identifier, name, surname, patronymic and creation time of the loaded
record; a present gender, resp. nationality, also pins its companion
probability. -/
theorem C9_frame (env : EnrichEnv) (p : Person)
    (h : env.loadResult = .ok p) :
    ∀ q, (EnrichPerson env).1 = .ok q →
      q.id = p.id ∧ q.name = p.name ∧ q.surname = p.surname ∧
      q.patronymic = p.patronymic ∧ q.createdAt = p.createdAt ∧
      (∀ a, p.age = some a → q.age = some a) ∧
      (∀ g, p.gender = some g →
         q.gender = some g ∧ q.genderProbability = p.genderProbability) ∧
      (∀ n, p.nationality = some n →
         q.nationality = some n ∧
         q.nationalityProbability = p.nationalityProbability) := by
  intro q hq
  obtain ⟨a1, a2, a3, a4, a5, a6, a7, a8, a9, a10, a11⟩ := enrichAge_frame env p
  obtain ⟨b1, b2, b3, b4, b5, b6, b7, b8, b9, b10⟩ :=
    enrichGender_frame env ((enrichAge env p).1)
  obtain ⟨c1, c2, c3, c4, c5, c6, c7, c8, c9, c10⟩ :=
    enrichNationality_frame env ((enrichGender env (enrichAge env p).1).1)
  rcases hu : env.updateExec with m | n
  · simp [EnrichPerson, h, hu, UpdatePerson] at hq
  rcases n with _ | k
  · simp [EnrichPerson, h, hu, UpdatePerson] at hq
  have hq2 : q = { (enrichNationality env
      (enrichGender env (enrichAge env p).1).1).1 with updatedAt := env.now } := by
    simp [EnrichPerson, h, hu, UpdatePerson] at hq
    exact hq.symm
  subst hq2
  refine ⟨?_, ?_, ?_, ?_, ?_, ?_, ?_, ?_⟩
  · simp [c1, b1, a1]
  · simp [c2, b2, a2]
  · simp [c3, b3, a3]
  · simp [c4, b4, a4]
  · simp [c5, b5, a5]
  · intro a hpa
    have hstep := a11 a hpa
    simp [c7, b7, hstep]
  · intro g hpg
    have hg1 : ((enrichAge env p).1).gender = some g := by rw [a7]; exact hpg
    obtain ⟨bg1, bg2⟩ := b10 g hg1
    refine ⟨by simp [c8, bg1], by simp [c9, bg2, a8]⟩
  · intro n hpn
    have hn1 : ((enrichGender env (enrichAge env p).1).1).nationality = some n := by
      rw [b8, a9]; exact hpn
    obtain ⟨cn1, cn2⟩ := c10 n hn1
    refine ⟨by simp [cn1], by simp [cn2, b9, a10]⟩

/-- C9 witness: on a fully populated record Enrich returns it with only the
UpdatedAt refreshed; the present gender and name are untouched. -/
theorem C9_frame_witness :
    (EnrichPerson allPresentEnv).1 = .ok { fullPerson with updatedAt := 200 } ∧
    ({ fullPerson with updatedAt := 200 } : Person).gender = some "male" ∧
    ({ fullPerson with updatedAt := 200 } : Person).name = fullPerson.name := by
  have hok : (EnrichPerson allPresentEnv).1 =
      .ok { fullPerson with updatedAt := 200 } := rfl
  have hC := C9_frame allPresentEnv fullPerson rfl
    { fullPerson with updatedAt := 200 } hok
  exact ⟨hok, (hC.2.2.2.2.2.2.1 "male" rfl).1, hC.2.1⟩

/-- C1 counterexample: with both no-determination responses and a failing
age lookup on a record with all fields absent, Enrich returns and persists a
record whose gender and nationality are present empty strings with zero
probability, not absent fields as the claim states. -/
theorem C1_counterexample :
    (EnrichPerson noDetermEnv).1 = .ok { blankPerson with
       gender := some "", genderProbability := some 0,
       nationality := some "", nationalityProbability := some 0,
       updatedAt := 200 } ∧
    ({ blankPerson with
       gender := some "", genderProbability := some 0,
       nationality := some "", nationalityProbability := some 0,
       updatedAt := 200 } : Person).gender ≠ none ∧
    ({ blankPerson with
       gender := some "", genderProbability := some 0,
       nationality := some "", nationalityProbability := some 0,
       updatedAt := 200 } : Person).nationality ≠ none :=
  ⟨rfl, by simp, by simp⟩

/-- Whenever Enrich returns a record, that record is the loaded one pushed
through the three blocks with UpdatedAt set to the write time. -/
theorem EnrichPerson_ok (env : EnrichEnv) (p : Person) (q : Person)
    (h : env.loadResult = .ok p) (hq : (EnrichPerson env).1 = .ok q) :
    q = { (enrichNationality env (enrichGender env (enrichAge env p).1).1).1
          with updatedAt := env.now } := by
  rcases hu : env.updateExec with m | n
  · simp [EnrichPerson, h, hu, UpdatePerson] at hq
  rcases n with _ | k
  · simp [EnrichPerson, h, hu, UpdatePerson] at hq
  simp [EnrichPerson, h, hu, UpdatePerson] at hq
  exact hq.symm

/-- C1 amended: a no-determination lookup response (empty value, zero
probability, no error) is handled by the success path of Enrich,
independently for each field: whenever the loaded record lacks a gender and
the gender lookup answers with no determination, the returned and persisted
record has its gender present, holding the empty string with probability
zero, whatever the age and nationality lookups did; likewise for the
nationality field, whatever the age and gender lookups did; and at the
capability level an empty candidate list produces exactly the
no-determination response. -/
theorem C1_no_determination (env : EnrichEnv) (p : Person)
    (h : env.loadResult = .ok p) :
    (p.gender = none → env.genderResult = ("", 0, none) →
       ∀ q, (EnrichPerson env).1 = .ok q →
         q.gender = some "" ∧ q.genderProbability = some 0) ∧
    (p.nationality = none → env.nationalityResult = ("", 0, none) →
       ∀ q, (EnrichPerson env).1 = .ok q →
         q.nationality = some "" ∧ q.nationalityProbability = some 0) ∧
    (∀ (nm : String) (r : NationalityResponse), nm ≠ "" → r.countries = [] →
       (GetNationalityByName (.resp 200 (.ok r)) nm).1 = ("", 0, none)) := by
  refine ⟨?_, ?_, ?_⟩
  · intro hg hgr q hq
    rw [EnrichPerson_ok env p q h hq]
    obtain ⟨-, -, -, -, -, -, a7, -, -, -, -⟩ := enrichAge_frame env p
    have hg1 : ((enrichAge env p).1).gender = none := by rw [a7, hg]
    have e2 := enrichGender_absent_ok env ((enrichAge env p).1) hg1
      (by rw [hgr])
    rw [hgr] at e2
    obtain ⟨-, -, -, -, -, -, -, c8, c9, -⟩ :=
      enrichNationality_frame env ((enrichGender env (enrichAge env p).1).1)
    constructor
    · simp only [c8]
      rw [e2]
    · simp only [c9]
      rw [e2]
  · intro hn hnr q hq
    rw [EnrichPerson_ok env p q h hq]
    obtain ⟨-, -, -, -, -, -, -, -, a9, -, -⟩ := enrichAge_frame env p
    obtain ⟨-, -, -, -, -, -, -, b8, -, -⟩ :=
      enrichGender_frame env ((enrichAge env p).1)
    have hn1 : ((enrichGender env (enrichAge env p).1).1).nationality = none := by
      rw [b8, a9, hn]
    have e3 := enrichNationality_absent_ok env
      ((enrichGender env (enrichAge env p).1).1) hn1 (by rw [hnr])
    rw [hnr] at e3
    exact ⟨by simp [e3], by simp [e3]⟩
  · intro nm r hnm hc
    simp [GetNationalityByName, hnm, hc]

/-- C1 witness for the amended claim: in the concrete no-determination
environment, each branch of the amended claim applied on its own yields the
persisted record with the present empty gender, resp. nationality. -/
theorem C1_no_determination_witness :
    (EnrichPerson noDetermEnv).1 = .ok { blankPerson with
       gender := some "", genderProbability := some 0,
       nationality := some "", nationalityProbability := some 0,
       updatedAt := 200 } ∧
    ({ blankPerson with
       gender := some "", genderProbability := some 0,
       nationality := some "", nationalityProbability := some 0,
       updatedAt := 200 } : Person).gender = some "" ∧
    ({ blankPerson with
       gender := some "", genderProbability := some 0,
       nationality := some "", nationalityProbability := some 0,
       updatedAt := 200 } : Person).nationality = some "" := by
  have hok : (EnrichPerson noDetermEnv).1 = .ok { blankPerson with
      gender := some "", genderProbability := some 0,
      nationality := some "", nationalityProbability := some 0,
      updatedAt := 200 } := rfl
  have hC := C1_no_determination noDetermEnv blankPerson rfl
  exact ⟨hok, (hC.1 rfl rfl _ hok).1, (hC.2.1 rfl rfl _ hok).1⟩

end Enrichment
